import Mathlib

/-!
Verification of the Bali procedure compiler and assembler.

The definitions below are a shallow embedding of the pipeline:
the `CompilingVisitor`/`InstructionBuilder` pair that turns a procedure
syntax tree into symbolic assembly, the `FormattingVisitor` that prints
the canonical assembly text, the instruction parser, and the
`AssemblingVisitor` that packs each parsed step into a bytecode word.
-/

namespace Bali

/-! ## Instruction type constants

Modelled from the spec: the `Types` module is a unit of this repository
that is not in the sources given; the numeric operation codes follow the
assembler's dispatch order and its documented range 0..7, and `SKIP`
shares the `JUMP` code as its zero-operand degenerate (spec, instruction
model section).  The modifier codes follow the order in which the spec
lists each operation's modifiers.  No theorem below depends on the
particular numerals, only on which ones coincide. -/

namespace types

def SKIP : Nat := 0
def JUMP : Nat := 0
def PUSH : Nat := 1
def POP : Nat := 2
def LOAD : Nat := 3
def STORE : Nat := 4
def INVOKE : Nat := 5
def EXECUTE : Nat := 6
def HANDLE : Nat := 7

-- jump modifiers
def ON_ANY : Nat := 0
def ON_NONE : Nat := 1
def ON_TRUE : Nat := 2
def ON_FALSE : Nat := 3

-- push modifiers
def HANDLER : Nat := 0
def LITERAL : Nat := 1
def CONSTANT : Nat := 2
def PARAMETER : Nat := 3

-- pop modifiers
def COMPONENT : Nat := 1

-- load/store modifiers
def VARIABLE : Nat := 0
def MESSAGE : Nat := 1
def DRAFT : Nat := 2
def DOCUMENT : Nat := 3

-- execute modifiers
def WITH_NOTHING : Nat := 0
def WITH_PARAMETERS : Nat := 1
def ON_TARGET : Nat := 2
def ON_TARGET_WITH_PARAMETERS : Nat := 3

-- handle modifiers
def EXCEPTION : Nat := 0
def RESULT : Nat := 1

end types

/-! ## Parsed assembly steps and symbol tables -/

/-- An assembly step as the instruction parser delivers it to the
assembler: an optional label, a numeric operation code, an optional
numeric modifier (a step for a bare `SKIP INSTRUCTION` line carries
none), and an optional textual operand (a label, a literal's canonical
text, or a symbol).  From the step catalogs built in `Parser.js` and
consumed in `Assembler.js`. -/
structure Step where
  label : Option String := none
  operation : Nat
  modifier : Option Nat := none
  operand : Option String := none
deriving DecidableEq, Repr

/-- `getIndex` of the bali ordered collections: the 1-based index of a
value in the table, or 0 when the value is absent. -/
def getIndex (table : List String) (value : String) : Nat :=
  match table.indexOf? value with
  | some i => i + 1
  | none => 0

/-- Catalog lookup (`getValue`): the value at a key, `none` when the key
is absent (JS `undefined`). -/
def getValue : List (String × Nat) → String → Option Nat
  | [], _ => none
  | (k, v) :: rest, key => if k = key then some v else getValue rest key

/-- Catalog update (`setValue`): replaces the value at an existing key,
otherwise appends the new association. -/
def setValue : List (String × Nat) → String → Nat → List (String × Nat)
  | [], key, v => [(key, v)]
  | (k, w) :: rest, key, v =>
      if k = key then (k, v) :: rest else (k, w) :: setValue rest key v

/-- `getIndex` applied to the raw operand slot: a missing operand (JS
`undefined`) is not in any table, so its index is 0. -/
def optIndex (table : List String) : Option String → Nat
  | some v => getIndex table v
  | none => 0

/-- The symbol tables the assembling visitor works against: the type
context's literals and constants, and the procedure context's
parameters, variables, procedures and addresses, plus the intrinsic
name registry. -/
structure Tables where
  literals : List String := []
  constants : List (String × String) := []
  parameters : List String := []
  «variables» : List String := []
  procedures : List String := []
  addresses : List (String × Nat) := []
  intrinsics : List String := []
deriving Repr

/-! ## Bytecode words -/

/-- Modelled from the spec: the bytecode utilities module is not in the
sources given.  The spec's instruction-model section packs one operation
code, one modifier and one operand into a fixed-width word, in that
field order, and the packing is injective; the word is therefore
represented by its fields.  The operand field is an `Option` so that a
JS `undefined` operand (an unresolved address, or an operation that
takes no operand) is passed through unchanged rather than invented. -/
structure Word where
  opcode : Nat
  modifier : Nat
  operand : Option Nat
deriving DecidableEq, Repr

/-- `bytecode.encodeInstruction`, at the field level. -/
def encodeInstruction (opcode modifier : Nat) (operand : Option Nat := none) : Word :=
  ⟨opcode, modifier, operand⟩

/-- The failures the assembly path can surface.  `invalidOperation` is
thrown by `AssemblingVisitor.visitCatalog` for an unknown operation
code; `invalidName` by `Intrinsics.index` for an unknown intrinsic;
`typeError` models the JS `TypeError` raised when a visitor reads a
`$modifier`/`$operand` field that is absent.  `invalidReference` is
declared so that the spec's error taxonomy is statable: no code path in
`Assembler.js` constructs it. -/
inductive AsmError where
  | invalidOperation (operation : Nat)
  | invalidName (symbol : String)
  | typeError
  | invalidReference (operand : String)
deriving DecidableEq, Repr

/-- `Intrinsics.index`: the position of the name in the registry's name
list; positions below 1 (missing, or the reserved slot 0) fail. -/
def intrinsicIndex (names : List String) (name : String) : Except AsmError Nat :=
  match names.indexOf? name with
  | some i => if i < 1 then .error (.invalidName name) else .ok i
  | none => .error (.invalidName name)

/-! ## The assembling visitor (`Assembler.js`) -/

/-- `AssemblingVisitor.visitJumpInstruction`: a step with no modifier is
the degenerate skip and encodes as the SKIP word; otherwise the label
operand is resolved through the addresses table and encoded with the
JUMP code and the step's modifier. -/
def visitJumpInstruction (t : Tables) (s : Step) : Word :=
  match s.modifier with
  | none => encodeInstruction types.SKIP 0 (some 0)
  | some m => encodeInstruction types.JUMP m (s.operand.bind (getValue t.addresses))

/-- `AssemblingVisitor.visitPushInstruction`: the operand is resolved
through the table selected by the modifier (handler labels through the
addresses, literals, constant keys and parameters through their
indexes); a modifier outside the four leaves the operand unresolved. -/
def visitPushInstruction (t : Tables) (s : Step) : Except AsmError Word :=
  match s.modifier with
  | none => .error .typeError
  | some m =>
      let value : Option Nat :=
        if m = types.HANDLER then s.operand.bind (getValue t.addresses)
        else if m = types.LITERAL then some (optIndex t.literals s.operand)
        else if m = types.CONSTANT then some (optIndex (t.constants.map Prod.fst) s.operand)
        else if m = types.PARAMETER then some (optIndex t.parameters s.operand)
        else none
      .ok (encodeInstruction types.PUSH m value)

/-- `AssemblingVisitor.visitPopInstruction`. -/
def visitPopInstruction (s : Step) : Except AsmError Word :=
  match s.modifier with
  | none => .error .typeError
  | some m => .ok (encodeInstruction types.POP m none)

/-- `AssemblingVisitor.visitLoadInstruction`. -/
def visitLoadInstruction (t : Tables) (s : Step) : Except AsmError Word :=
  match s.modifier with
  | none => .error .typeError
  | some m => .ok (encodeInstruction types.LOAD m (some (optIndex t.«variables» s.operand)))

/-- `AssemblingVisitor.visitStoreInstruction`. -/
def visitStoreInstruction (t : Tables) (s : Step) : Except AsmError Word :=
  match s.modifier with
  | none => .error .typeError
  | some m => .ok (encodeInstruction types.STORE m (some (optIndex t.«variables» s.operand)))

/-- `AssemblingVisitor.visitInvokeInstruction`: the intrinsic name is
looked up in the registry, which fails for an unknown name. -/
def visitInvokeInstruction (t : Tables) (s : Step) : Except AsmError Word :=
  match s.modifier with
  | none => .error .typeError
  | some count =>
      match s.operand with
      | none => .error .typeError
      | some symbol =>
          match intrinsicIndex t.intrinsics symbol with
          | .error e => .error e
          | .ok i => .ok (encodeInstruction types.INVOKE count (some i))

/-- `AssemblingVisitor.visitExecuteInstruction`. -/
def visitExecuteInstruction (t : Tables) (s : Step) : Except AsmError Word :=
  match s.modifier with
  | none => .error .typeError
  | some m => .ok (encodeInstruction types.EXECUTE m (some (optIndex t.procedures s.operand)))

/-- `AssemblingVisitor.visitHandleInstruction`. -/
def visitHandleInstruction (s : Step) : Except AsmError Word :=
  match s.modifier with
  | none => .error .typeError
  | some m => .ok (encodeInstruction types.HANDLE m none)

/-- `AssemblingVisitor.visitCatalog`: dispatch on the operation code;
the step's label is never read, since labels do not show up in the
bytecode.  An operation code outside the dispatch fails with
`invalidOperation`. -/
def visitCatalog (t : Tables) (s : Step) : Except AsmError Word :=
  if s.operation = types.JUMP then .ok (visitJumpInstruction t s)
  else if s.operation = types.PUSH then visitPushInstruction t s
  else if s.operation = types.POP then visitPopInstruction s
  else if s.operation = types.LOAD then visitLoadInstruction t s
  else if s.operation = types.STORE then visitStoreInstruction t s
  else if s.operation = types.INVOKE then visitInvokeInstruction t s
  else if s.operation = types.EXECUTE then visitExecuteInstruction t s
  else if s.operation = types.HANDLE then visitHandleInstruction s
  else .error (.invalidOperation s.operation)

/-! ## The instruction builder (`InstructionBuilder` in the compiler) -/

/-- One line of the accumulating assembly source: a `L:` label line or an
instruction line. -/
inductive AsmLine where
  | lbl (l : String)
  | ins (text : String)
deriving DecidableEq, Repr

/-- `addItem` of a bali set-valued table: idempotent insertion keeping
first-mention order. -/
def addItem (table : List String) (v : String) : List String :=
  if v ∈ table then table else table ++ [v]

/-- The mutable state of the instruction builder: the next 1-based
instruction address, the at-most-one pending label, the label→address
catalog, the variable/procedure/literal tables it populates, the
accumulated assembly lines, and the finalisation flag (a JS field that
is undefined — falsy — until the statement loop first sets it). -/
structure BuilderState where
  address : Nat := 1
  nextLabel : Option String := none
  addresses : List (String × Nat) := []
  «variables» : List String := []
  procedures : List String := []
  literals : List String := []
  asm : List AsmLine := []
  requiresFinalization : Bool := false
deriving DecidableEq, Repr

/-- `InstructionBuilder.insertInstruction`: a pending label is recorded
in the addresses catalog at the current address and written on its own
line before the instruction; then the instruction line is appended and
the address advances. -/
def insertInstruction (text : String) (st : BuilderState) : BuilderState :=
  match st.nextLabel with
  | some l =>
      { st with
        addresses := setValue st.addresses l st.address
        asm := st.asm ++ [.lbl l, .ins text]
        nextLabel := none
        address := st.address + 1 }
  | none =>
      { st with asm := st.asm ++ [.ins text], address := st.address + 1 }

/-- `InstructionBuilder.insertSkipInstruction`. -/
def insertSkipInstruction (st : BuilderState) : BuilderState :=
  insertInstruction "SKIP INSTRUCTION" st

/-- `InstructionBuilder.insertLabel`: when a label is already pending, a
skip instruction is emitted first (flushing the pending label onto it)
and then the new label becomes the pending one. -/
def insertLabel (label : String) (st : BuilderState) : BuilderState :=
  let st' := if st.nextLabel.isSome then insertSkipInstruction st else st
  { st' with nextLabel := some label }

/-- `InstructionBuilder.insertJumpInstruction`: the optional context is
the `ON ...` suffix. -/
def insertJumpInstruction (label : String) (context : Option String) (st : BuilderState) : BuilderState :=
  insertInstruction ("JUMP TO " ++ label ++ (match context with
    | some c => " " ++ c
    | none => "")) st

/-- `InstructionBuilder.insertLoadInstruction`: emits the line and adds
the symbol to the variables table. -/
def insertLoadInstruction (kind symbol : String) (st : BuilderState) : BuilderState :=
  let st' := insertInstruction ("LOAD " ++ kind ++ " " ++ symbol) st
  { st' with «variables» := addItem st'.«variables» symbol }

/-- `InstructionBuilder.insertStoreInstruction`. -/
def insertStoreInstruction (kind symbol : String) (st : BuilderState) : BuilderState :=
  let st' := insertInstruction ("STORE " ++ kind ++ " " ++ symbol) st
  { st' with «variables» := addItem st'.«variables» symbol }

/-- `InstructionBuilder.insertHandleInstruction`. -/
def insertHandleInstruction (context : String) (st : BuilderState) : BuilderState :=
  insertInstruction ("HANDLE " ++ context) st

/-- `InstructionBuilder.finalize`: loads the result variable and handles
the result. -/
def finalize (st : BuilderState) : BuilderState :=
  insertHandleInstruction "RESULT" (insertLoadInstruction "VARIABLE" "$$result" st)

/-- `CompilingVisitor.getInstructions`: finalizes only when the flag was
set and not cleared. -/
def getInstructions (st : BuilderState) : BuilderState :=
  if st.requiresFinalization then finalize st else st

/-- The builder state `Compiler.compileProcedure` starts from: address
1, no pending label, empty tables except the variables set seeded with
`$target`, and the finalisation flag still unset (JS undefined). -/
def initState : BuilderState :=
  { «variables» := ["$target"] }

/-- `CompilingVisitor.visitProcedure`'s statement loop: before each
statement is visited, the builder's finalisation flag is set; the
statement's own compilation is abstracted as a state transformer.  With
zero statements the loop body never runs. -/
def visitProcedureLoop (stmts : List (BuilderState → BuilderState)) (st : BuilderState) : BuilderState :=
  stmts.foldl (fun s f => f { s with requiresFinalization := true }) st

/-! ## Statement scaffolding (`CompilingVisitor.visitStatement`) -/

/-- One builder invocation recorded symbolically: a label definition
(`insertLabel`) or an emitted instruction (`insertInstruction` through
one of its wrappers). -/
inductive BOp where
  | lbl (l : String)
  | raw (text : String)
deriving DecidableEq, Repr

/-- Replays recorded builder invocations against a builder state. -/
def runOp (st : BuilderState) : BOp → BuilderState
  | .lbl l => insertLabel l st
  | .raw t => insertInstruction t st

/-- The labels `InstructionBuilder.pushStatementContext` derives for a
statement from the prefix and the statement kind. -/
structure StmtCtx where
  startLabel : String
  doneLabel : String
  handlerLabel : String
  failureLabel : String
  successLabel : String
deriving DecidableEq, Repr

/-- `CompilingVisitor.visitStatement` as the sequence of builder
invocations it performs: the start label; a `PUSH HANDLER` when the
statement has handle clauses; the main clause's own invocations; and,
when the statement has subclauses or handlers, the done label followed —
only with handlers — by `POP HANDLER`, the jump over the handlers, the
handler label, the handle clauses' invocations, the failure label with
`HANDLE EXCEPTION`, and the success label.  `hasClauses` is the source's
`clauseCount > 0` where `clauseCount` counts subclauses plus handle
clauses. -/
def visitStatementOps (ctx : StmtCtx) (subclauseCount handlerCount : Nat)
    (mainOps handlerOps : List BOp) : List BOp :=
  [.lbl ctx.startLabel]
  ++ (if 0 < handlerCount then [.raw ("PUSH HANDLER " ++ ctx.handlerLabel)] else [])
  ++ mainOps
  ++ (if 0 < subclauseCount + handlerCount then
        [.lbl ctx.doneLabel]
        ++ (if 0 < handlerCount then
              [.raw "POP HANDLER", .raw ("JUMP TO " ++ ctx.successLabel), .lbl ctx.handlerLabel]
              ++ handlerOps
              ++ [.lbl ctx.failureLabel, .raw "HANDLE EXCEPTION", .lbl ctx.successLabel]
            else [])
      else [])

/-! ## Loop escape (`visitBreakClause` / `visitContinueClause`) -/

/-- What a break or continue needs from one frame of the builder's
procedure stack: the active statement's loop label (set only by while
and with-each clauses) and its done label. -/
structure Frame where
  loopLabel : Option String := none
  doneLabel : String := ""
deriving DecidableEq, Repr

/-- The search both clauses perform: walk the procedure stack from the
innermost frame (the end of the stack array) outward and take the first
frame whose statement has a loop label. -/
def findEnclosingLoop (stack : List Frame) : Option Frame :=
  stack.reverse.find? (fun f => f.loopLabel.isSome)

/-- The compile-time failure of a loop escape with no enclosing loop. -/
inductive CompilerError where
  | noEnclosingLoop
deriving DecidableEq, Repr

/-- `CompilingVisitor.visitBreakClause`: jump to the done label of the
nearest enclosing loop statement, or fail. -/
def visitBreakClause (stack : List Frame) : Except CompilerError (List BOp) :=
  match findEnclosingLoop stack with
  | some f => .ok [.raw ("JUMP TO " ++ f.doneLabel)]
  | none => .error .noEnclosingLoop

/-- `CompilingVisitor.visitContinueClause`: jump to the loop label of
the nearest enclosing loop statement, or fail. -/
def visitContinueClause (stack : List Frame) : Except CompilerError (List BOp) :=
  match stack.reverse.findSome? (fun f => f.loopLabel) with
  | some l => .ok [.raw ("JUMP TO " ++ l)]
  | none => .error .noEnclosingLoop

/-! ## Parameter extraction (`Compiler.compileProcedure`) -/

/-- A declared parameter of a parameterized procedure: either an
association with a default value or a bare component. -/
inductive Parameter where
  | association (key value : String)
  | plain (symbol : String)
deriving DecidableEq, Repr

/-- The symbol the compiler keeps for a parameter: the key of an
association, the component itself otherwise. -/
def parameterKey : Parameter → String
  | .association k _ => k
  | .plain s => s

/-- The parameter-collection loop of `Compiler.compileProcedure`: when
the source is parameterized, iterate the declared parameters in order,
replacing each association by its key, and append each to the
parameters list; otherwise the list stays empty. -/
def extractParameters (isParameterized : Bool) (ps : List Parameter) : List String :=
  if isParameterized then
    ps.foldl (fun acc p =>
      acc ++ [match p with
              | .association k _ => k
              | .plain s => s]) []
  else []

/-! ## The assembly formatter (`FormattingVisitor`)

The modifier-to-string tables live in the `Types` module, which is not
in the sources given; the strings are modelled from the canonical
assembly grammar of the spec and the grammar comments repeated above
each formatter method. -/

/-- Modelled from the spec: `Types.jumpModifierString`. -/
def jumpModifierString (m : Nat) : String :=
  if m = types.ON_NONE then "ON NONE"
  else if m = types.ON_TRUE then "ON TRUE"
  else if m = types.ON_FALSE then "ON FALSE"
  else "ON ANY"

/-- Modelled from the spec: `Types.pushModifierString`. -/
def pushModifierString (m : Nat) : String :=
  if m = types.HANDLER then "HANDLER"
  else if m = types.LITERAL then "LITERAL"
  else if m = types.CONSTANT then "CONSTANT"
  else "PARAMETER"

/-- Modelled from the spec: `Types.popModifierString`. -/
def popModifierString (m : Nat) : String :=
  if m = types.HANDLER then "HANDLER" else "COMPONENT"

/-- Modelled from the spec: `Types.loadModifierString` (also used for
stores). -/
def loadModifierString (m : Nat) : String :=
  if m = types.VARIABLE then "VARIABLE"
  else if m = types.MESSAGE then "MESSAGE"
  else if m = types.DRAFT then "DRAFT"
  else "DOCUMENT"

/-- Modelled from the spec: `Types.executeModifierString`. -/
def executeModifierString (m : Nat) : String :=
  if m = types.WITH_PARAMETERS then "WITH PARAMETERS"
  else if m = types.ON_TARGET then "ON TARGET"
  else "ON TARGET WITH PARAMETERS"

/-- Modelled from the spec: `Types.handleModifierString`. -/
def handleModifierString (m : Nat) : String :=
  if m = types.EXCEPTION then "EXCEPTION" else "RESULT"

/-- `FormattingVisitor.visitJumpInstruction`: a step without a modifier
prints as the skip instruction; otherwise the `ON` clause is omitted
exactly when the modifier is `ON_ANY`. -/
def formatJumpInstruction (s : Step) : String :=
  match s.modifier with
  | none => "SKIP INSTRUCTION"
  | some m =>
      "JUMP TO " ++ s.operand.getD ""
      ++ (if m = types.ON_ANY then "" else " " ++ jumpModifierString m)

/-- `FormattingVisitor.visitPushInstruction`: a literal operand is
wrapped in backquotes, other operands print as they are.  The operand is
present on every step the parser can produce; a missing one prints as
the empty text. -/
def formatPushInstruction (s : Step) (m : Nat) : String :=
  "PUSH " ++ pushModifierString m ++ " "
  ++ (if m = types.LITERAL then "`" ++ s.operand.getD "" ++ "`" else s.operand.getD "")

/-- `FormattingVisitor.visitInvokeInstruction`: the `WITH` clause is
omitted for zero parameters, singular for one, and counted for more. -/
def formatInvokeInstruction (s : Step) (m : Nat) : String :=
  "INVOKE " ++ s.operand.getD ""
  ++ (if 0 < m then
        " WITH " ++ (if 1 < m then Nat.repr m ++ " PARAMETERS" else "PARAMETER")
      else "")

/-- `FormattingVisitor.visitExecuteInstruction`: the modifier string is
omitted exactly when the modifier is `WITH_NOTHING`. -/
def formatExecuteInstruction (s : Step) (m : Nat) : String :=
  "EXECUTE " ++ s.operand.getD ""
  ++ (if m = types.WITH_NOTHING then "" else " " ++ executeModifierString m)

/-- `FormattingVisitor.visitCatalog`'s instruction dispatch: the text of
one instruction (without its label line).  `none` models the
`invalidOperation` exception for an unknown operation code and the JS
`TypeError` for a modifier read off a step that lacks one. -/
def formatInstructionText (s : Step) : Option String :=
  if s.operation = types.JUMP then some (formatJumpInstruction s)
  else if s.operation = types.PUSH then
    (s.modifier).map (fun m => formatPushInstruction s m)
  else if s.operation = types.POP then
    (s.modifier).map (fun m => "POP " ++ popModifierString m)
  else if s.operation = types.LOAD then
    (s.modifier).map (fun m => "LOAD " ++ loadModifierString m ++ " " ++ s.operand.getD "")
  else if s.operation = types.STORE then
    (s.modifier).map (fun m => "STORE " ++ loadModifierString m ++ " " ++ s.operand.getD "")
  else if s.operation = types.INVOKE then
    (s.modifier).map (fun m => formatInvokeInstruction s m)
  else if s.operation = types.EXECUTE then
    (s.modifier).map (fun m => formatExecuteInstruction s m)
  else if s.operation = types.HANDLE then
    (s.modifier).map (fun m => "HANDLE " ++ handleModifierString m)
  else none

/-- One step's text at indentation zero: a labelled step prints the
label on its own line ending in a colon, preceded by a blank line unless
it is the first step. -/
def formatStep (first : Bool) (s : Step) : Option String :=
  (formatInstructionText s).map (fun t =>
    (match s.label with
     | some l => (if first then "" else "\n") ++ l ++ ":\n"
     | none => "") ++ t)

/-- `Formatter.formatInstructions` at indentation zero: the steps' texts
joined by single end-of-line characters (`FormattingVisitor.visitList`).
The visitor cannot run on an empty list. -/
def formatInstructions : List Step → Option String
  | [] => none
  | s :: rest => do
      let h ← formatStep true s
      let t ← rest.mapM (fun s' => (formatStep false s').map (fun x => "\n" ++ x))
      pure (h ++ String.join t)

/-! ## The instruction parser (`Parser.js`)

`Parser.parseInstructions` runs a generated grammar (the grammar module
is not in the sources given) and converts the parse tree with
`ParsingVisitor`.  The productions are modelled from the grammar rules
quoted above each visitor method of `Parser.js`: `skipInstruction`,
`jumpInstruction`, `pushInstruction` (`HANDLER`/`LITERAL`/`CONSTANT`/
`ARGUMENT`), `pullInstruction`, `loadInstruction`, `saveInstruction`,
`dropInstruction`, `callInstruction` and `sendInstruction`.  A line
matching no production is a syntax error. -/

/-- The operations of the parser's instruction set. -/
inductive POp where
  | skip | jump | push | pull | load | save | drop | call | send
deriving DecidableEq, Repr

/-- A step as `ParsingVisitor` builds it. -/
structure ParsedStep where
  label : Option String := none
  operation : POp
  modifier : Option Nat := none
  operand : Option String := none
deriving DecidableEq, Repr

/-- Splits a string at end-of-line characters. -/
def splitLinesAux : List Char → List Char → List String
  | [], acc => [String.mk acc.reverse]
  | c :: rest, acc =>
      if c = '\n' then String.mk acc.reverse :: splitLinesAux rest []
      else splitLinesAux rest (c :: acc)

/-- The lines of a document. -/
def strLines (s : String) : List String := splitLinesAux s.data []

/-- Drops an expected sequence of characters, failing if absent. -/
def dropToken : List Char → List Char → Option (List Char)
  | [], s => some s
  | _ :: _, [] => none
  | p :: ps, c :: cs => if p = c then dropToken ps cs else none

/-- Drops an expected leading keyword (given as a string). -/
def dropKeyword (keyword : String) (s : List Char) : Option (List Char) :=
  dropToken keyword.data s

/-- A `LABEL` token: nonempty and without blanks. -/
def isLabelToken (cs : List Char) : Bool :=
  decide (cs ≠ []) && !(cs.contains ' ')

/-- A `SYMBOL` token: a `$` followed by a nonempty identifier without
blanks. -/
def isSymbolToken (cs : List Char) : Bool :=
  match cs with
  | '$' :: rest => decide (rest ≠ []) && !(cs.contains ' ')
  | _ => false

/-- Strips an expected trailing keyword, such as a jump condition. -/
def dropSuffix? (suffix : String) (cs : List Char) : Option (List Char) :=
  (dropToken suffix.data.reverse cs.reverse).map List.reverse

/-- `jumpInstruction`: a label and an optional `ON` condition; without
one the modifier is `ON_ANY` (`ParsedStep` records the condition codes
0..3 in grammar order). -/
def parseJumpRest (rest : List Char) : Option ParsedStep :=
  let mk := fun (m : Nat) (l : List Char) =>
    if isLabelToken l then
      some { operation := POp.jump, modifier := some m, operand := some (String.mk l) }
    else none
  match dropSuffix? " ON NONE" rest with
  | some core => mk 1 core
  | none =>
      match dropSuffix? " ON TRUE" rest with
      | some core => mk 2 core
      | none =>
          match dropSuffix? " ON FALSE" rest with
          | some core => mk 3 core
          | none => mk 0 rest

/-- `pushInstruction`: handler labels, backquoted literals, and constant
or argument symbols. -/
def parsePushRest (rest : List Char) : Option ParsedStep :=
  match dropKeyword "HANDLER " rest with
  | some l =>
      if isLabelToken l then
        some { operation := POp.push, modifier := some 0, operand := some (String.mk l) }
      else none
  | none =>
      match dropKeyword "LITERAL `" rest with
      | some l =>
          match dropSuffix? "`" l with
          | some core => some { operation := POp.push, modifier := some 1, operand := some (String.mk core) }
          | none => none
      | none =>
          match dropKeyword "CONSTANT " rest with
          | some l =>
              if isSymbolToken l then
                some { operation := POp.push, modifier := some 2, operand := some (String.mk l) }
              else none
          | none =>
              match dropKeyword "ARGUMENT " rest with
              | some l =>
                  if isSymbolToken l then
                    some { operation := POp.push, modifier := some 3, operand := some (String.mk l) }
                  else none
              | none => none

/-- A modifier keyword followed by a symbol, shared by the load, save
and drop productions. -/
def parseSymbolRest (op : POp) (kinds : List (String × Nat)) (rest : List Char) : Option ParsedStep :=
  match kinds with
  | [] => none
  | (kw, m) :: more =>
      match dropKeyword (kw ++ " ") rest with
      | some l =>
          if isSymbolToken l then
            some { operation := op, modifier := some m, operand := some (String.mk l) }
          else none
      | none => parseSymbolRest op more rest

/-- `pullInstruction`: one of the four bare modifiers. -/
def parsePullRest (rest : List Char) : Option ParsedStep :=
  if rest = "HANDLER".data then some { operation := POp.pull, modifier := some 0 }
  else if rest = "COMPONENT".data then some { operation := POp.pull, modifier := some 1 }
  else if rest = "RESULT".data then some { operation := POp.pull, modifier := some 2 }
  else if rest = "EXCEPTION".data then some { operation := POp.pull, modifier := some 3 }
  else none

/-- The variable-kind keywords of the load, save and drop productions. -/
def variableKinds : List (String × Nat) :=
  [("VARIABLE", 0), ("MESSAGE", 1), ("DRAFT", 2), ("DOCUMENT", 3)]

/-- `callInstruction`: a symbol and an optional argument count. -/
def parseCallRest (rest : List Char) : Option ParsedStep :=
  match dropSuffix? " WITH 1 ARGUMENT" rest with
  | some core =>
      if isSymbolToken core then
        some { operation := POp.call, modifier := some 1, operand := some (String.mk core) }
      else none
  | none =>
      match dropSuffix? " WITH 2 ARGUMENTS" rest with
      | some core =>
          if isSymbolToken core then
            some { operation := POp.call, modifier := some 2, operand := some (String.mk core) }
          else none
      | none =>
          match dropSuffix? " WITH 3 ARGUMENTS" rest with
          | some core =>
              if isSymbolToken core then
                some { operation := POp.call, modifier := some 3, operand := some (String.mk core) }
              else none
          | none =>
              if isSymbolToken rest then
                some { operation := POp.call, modifier := some 0, operand := some (String.mk rest) }
              else none

/-- `sendInstruction`: a symbol sent to a component or document, with or
without arguments. -/
def parseSendRest (rest : List Char) : Option ParsedStep :=
  let mk := fun (m : Nat) (core : List Char) =>
    if isSymbolToken core then
      some { operation := POp.send, modifier := some m, operand := some (String.mk core) }
    else none
  match dropSuffix? " TO COMPONENT WITH ARGUMENTS" rest with
  | some core => mk 1 core
  | none =>
      match dropSuffix? " TO COMPONENT" rest with
      | some core => mk 0 core
      | none =>
          match dropSuffix? " TO DOCUMENT WITH ARGUMENTS" rest with
          | some core => mk 3 core
          | none =>
              match dropSuffix? " TO DOCUMENT" rest with
              | some core => mk 2 core
              | none => none

/-- One instruction line against every production of the grammar; a line
matching none is a syntax error. -/
def parseInstructionLine (line : String) : Option ParsedStep :=
  let cs := line.data
  if line = "SKIP INSTRUCTION" then some { operation := POp.skip }
  else
    match dropKeyword "JUMP TO " cs with
    | some rest => parseJumpRest rest
    | none =>
        match dropKeyword "PUSH " cs with
        | some rest => parsePushRest rest
        | none =>
            match dropKeyword "PULL " cs with
            | some rest => parsePullRest rest
            | none =>
                match dropKeyword "LOAD " cs with
                | some rest => parseSymbolRest POp.load variableKinds rest
                | none =>
                    match dropKeyword "SAVE " cs with
                    | some rest => parseSymbolRest POp.save variableKinds rest
                    | none =>
                        match dropKeyword "DROP " cs with
                        | some rest => parseSymbolRest POp.drop variableKinds rest
                        | none =>
                            match dropKeyword "CALL " cs with
                            | some rest => parseCallRest rest
                            | none =>
                                match dropKeyword "SEND " cs with
                                | some rest => parseSendRest rest
                                | none => none

/-- The line loop of `Parser.parseInstructions`: blank lines may precede
a step, a line ending in a colon is the label of the following
instruction, and every other line must match an instruction production;
`none` is the parser's fatal syntax error. -/
def parseLinesAux : List String → Option String → Option (List ParsedStep)
  | [], none => some []
  | [], some _ => none
  | line :: rest, pending =>
      if line = "" then
        match pending with
        | none => parseLinesAux rest none
        | some _ => none
      else
        match dropSuffix? ":" line.data with
        | some l =>
            (match pending with
             | some _ => none
             | none =>
                 if isLabelToken l then parseLinesAux rest (some (String.mk l))
                 else none)
        | none =>
            match parseInstructionLine line with
            | some step =>
                (parseLinesAux rest none).map (fun steps => { step with label := pending } :: steps)
            | none => none

/-- `Parser.parseInstructions`: parse a document of assembly text into
its list of steps, or fail with a syntax error. -/
def parseInstructions (text : String) : Option (List ParsedStep) :=
  parseLinesAux (strLines text) none

/-! ## Concrete instances used by witnesses and counterexamples -/

/-- Empty symbol tables: nothing interned, no addresses recorded. -/
def emptyTables : Tables := {}

/-- A jump step whose label has no entry in the (empty) addresses
table. -/
def jumpMissingStep : Step :=
  { operation := types.JUMP, modifier := some types.ON_TRUE, operand := some "2.ConditionClause" }

/-- A push-literal step whose value is not interned in the (empty)
literals table. -/
def pushMissingStep : Step :=
  { operation := types.PUSH, modifier := some types.LITERAL, operand := some "false" }

/-- Tables holding two recorded label addresses. -/
def exJumpTables : Tables :=
  { addresses := [("1.1.ConditionClause", 2), ("1.WhileStatementDone", 7)] }

/-- A conditional jump to a recorded label. -/
def exJumpStep : Step :=
  { operation := types.JUMP, modifier := some types.ON_FALSE, operand := some "1.WhileStatementDone" }

/-- An invoke step with exactly one argument. -/
def invokeOneStep : Step :=
  { operation := types.INVOKE, modifier := some 1, operand := some "$factorial" }

/-- A builder state in the middle of a compile, with a label pending. -/
def exBuilder : BuilderState :=
  { address := 3
    nextLabel := some "1.IfStatementDone"
    addresses := [("1.IfStatement", 1)]
    «variables» := ["$target"]
    asm := [.lbl "1.IfStatement", .ins "LOAD VARIABLE $condition", .ins "POP HANDLER"] }

/-- The statement labels of a first handled statement. -/
def exStmtCtx : StmtCtx :=
  { startLabel := "1.EvaluateStatement"
    doneLabel := "1.EvaluateStatementDone"
    handlerLabel := "1.EvaluateStatementHandlers"
    failureLabel := "1.EvaluateStatementFailed"
    successLabel := "1.EvaluateStatementSucceeded" }

/-- A frame stack whose innermost frame has no loop and whose outer
frame is a while statement. -/
def exLoopStack : List Frame :=
  [{ loopLabel := some "1.1.ConditionClause", doneLabel := "1.WhileStatementDone" },
   { loopLabel := none, doneLabel := "1.1.1.IfStatementDone" }]

/-- The two instructions the finaliser emits, as parsed steps of the
old instruction set (the tail of every finalized compile). -/
def loadResultStep : Step :=
  { operation := types.LOAD, modifier := some types.VARIABLE, operand := some "$$result" }

/-- The terminal handle-result step. -/
def handleResultStep : Step :=
  { operation := types.HANDLE, modifier := some types.RESULT }

/-! ## Supporting lemmas -/

/-- The key list of an address catalog. -/
def catalogKeys (a : List (String × Nat)) : List String := a.map Prod.fst

/-- `setValue` either overwrites an existing key, keeping the key list,
or appends the new key at the end. -/
theorem setValue_keys (a : List (String × Nat)) (k : String) (v : Nat) :
    catalogKeys (setValue a k v)
      = if k ∈ catalogKeys a then catalogKeys a else catalogKeys a ++ [k] := by
  induction a with
  | nil => simp [setValue, catalogKeys]
  | cons p rest ih =>
      obtain ⟨pk, pv⟩ := p
      by_cases hk : pk = k
      · subst hk
        simp [setValue, catalogKeys]
      · have hne : ¬(k = pk) := fun h => hk h.symm
        simp only [setValue, if_neg hk, catalogKeys, List.map_cons] at ih ⊢
        rw [ih]
        by_cases hmem : k ∈ rest.map Prod.fst
        · simp [hmem, hne]
        · simp [hmem, hne]

/-- `setValue` keeps the catalog's keys free of duplicates: each label
is bound to exactly one address. -/
theorem setValue_fst_nodup {a : List (String × Nat)} {k : String} {v : Nat}
    (h : (catalogKeys a).Nodup) : (catalogKeys (setValue a k v)).Nodup := by
  rw [setValue_keys]
  by_cases hmem : k ∈ catalogKeys a
  · simpa [hmem] using h
  · simp [hmem, List.nodup_append, h]

/-- The first `some` produced by the loop-label search is the loop label
of the first frame that has one. -/
theorem findSome?_loopLabel (l : List Frame) :
    l.findSome? (fun f => f.loopLabel)
      = (l.find? (fun f => f.loopLabel.isSome)).bind (fun f => f.loopLabel) := by
  induction l with
  | nil => rfl
  | cons f rest ih =>
      cases h : f.loopLabel with
      | none => simp [List.findSome?_cons, List.find?_cons, h, ih]
      | some x => simp [List.findSome?_cons, List.find?_cons, h]

/-- Errors out of `Intrinsics.index` are always the unknown-name
failure. -/
theorem intrinsicIndex_error {names : List String} {name : String} {e : AsmError}
    (h : intrinsicIndex names name = .error e) : e = .invalidName name := by
  unfold intrinsicIndex at h
  rcases hi : names.indexOf? name with _ | i <;> simp [hi] at h
  · exact h.symm
  · split at h <;> simp_all

/-- Finalisation appends exactly the result-loading tail (after flushing
a pending label, when one exists). -/
theorem finalize_appends_result_tail (st : BuilderState)
    (h : st.requiresFinalization = true) :
    ∃ pre, (getInstructions st).asm
      = st.asm ++ pre ++ [.ins "LOAD VARIABLE $$result", .ins "HANDLE RESULT"] := by
  cases hn : st.nextLabel with
  | none =>
      refine ⟨[], ?_⟩
      simp [getInstructions, h, finalize, insertLoadInstruction, insertHandleInstruction,
        insertInstruction, hn]
  | some l =>
      refine ⟨[.lbl l], ?_⟩
      simp [getInstructions, h, finalize, insertLoadInstruction, insertHandleInstruction,
        insertInstruction, hn]

/-! ## Claim theorems -/

/-- C1: compiling a procedure with zero statements does not finalize:
the statement loop never sets the finalisation flag (it starts out as
the JS undefined), so `getInstructions` returns the assembly unchanged —
empty, with no `LOAD VARIABLE $$result` / `HANDLE RESULT` tail — and the
variables table still holds only `$target`, not `$$result`. -/
theorem emptyProcedure_skips_finalization :
    (getInstructions (visitProcedureLoop [] initState)).asm = []
    ∧ (getInstructions (visitProcedureLoop [] initState)).«variables» = ["$target"] :=
  ⟨rfl, rfl⟩

/-- C2 (amended): the assembler never fails with an InvalidReference
error: a JUMP (and, symmetrically, a PUSH with any of its four
modifiers) always produces a bytecode word, whatever the tables hold —
an unresolved label or uninterned value flows into the word as an
unresolved (or zero) operand. -/
theorem assembler_never_invalidReference (t : Tables) (s : Step) :
    (∀ o, visitCatalog t s ≠ .error (.invalidReference o))
    ∧ (s.operation = types.JUMP → ∃ w, visitCatalog t s = .ok w)
    ∧ (∀ m, s.operation = types.PUSH → s.modifier = some m →
        ∃ w, visitCatalog t s = .ok w) := by
  refine ⟨?_, ?_, ?_⟩
  · intro o h
    unfold visitCatalog at h
    split_ifs at h
    all_goals
      first
      | (simp at h
         done)
      | (simp only [visitPushInstruction, visitPopInstruction, visitLoadInstruction,
           visitStoreInstruction, visitExecuteInstruction, visitHandleInstruction] at h
         cases hsm : s.modifier <;> simp [hsm] at h
         done)
      | (simp only [visitInvokeInstruction] at h
         cases hsm : s.modifier <;> simp [hsm] at h
         cases hso : s.operand <;> simp [hso] at h
         rename_i sym
         rcases hI : intrinsicIndex t.intrinsics sym with e | i <;> simp [hI] at h
         have he := intrinsicIndex_error hI
         simp [he] at h
         done)
  · intro h
    exact ⟨visitJumpInstruction t s, by simp [visitCatalog, h]⟩
  · intro m h hm
    rw [show visitCatalog t s = visitPushInstruction t s from by
      unfold visitCatalog
      rw [h]
      simp [types.PUSH, types.JUMP]]
    unfold visitPushInstruction
    rw [hm]
    exact ⟨_, rfl⟩

/-- C2 witness: at the concrete unresolved jump the amended theorem
yields a word. -/
theorem assembler_never_invalidReference_witness :
    ∃ w, visitCatalog emptyTables jumpMissingStep = .ok w :=
  (assembler_never_invalidReference emptyTables jumpMissingStep).2.1 rfl

/-- C2 counterexample: a jump whose label has no address entry, and a
push-literal whose value is not interned, both assemble to an `ok` word
(with an unresolved respectively zero operand) instead of failing with
InvalidReference. -/
theorem unresolved_jump_still_encodes :
    visitCatalog emptyTables jumpMissingStep
      = .ok (encodeInstruction types.JUMP types.ON_TRUE none)
    ∧ visitCatalog emptyTables pushMissingStep
      = .ok (encodeInstruction types.PUSH types.LITERAL (some 0)) :=
  ⟨rfl, rfl⟩

/-- C5: a parsed JUMP step with no modifier assembles to the SKIP word
(opcode SKIP, modifier 0, operand 0); one with a modifier assembles to a
word with the JUMP opcode, that modifier, and the address looked up for
the step's label operand in the addresses table. -/
theorem jump_step_encoding (t : Tables) (s : Step) (h : s.operation = types.JUMP) :
    (s.modifier = none →
        visitCatalog t s = .ok (encodeInstruction types.SKIP 0 (some 0)))
    ∧ (∀ m, s.modifier = some m →
        visitCatalog t s
          = .ok (encodeInstruction types.JUMP m (s.operand.bind (getValue t.addresses)))) := by
  constructor
  · intro hm
    simp [visitCatalog, h, visitJumpInstruction, hm]
  · intro m hm
    simp [visitCatalog, h, visitJumpInstruction, hm]

/-- C5 witness: the concrete conditional jump is encoded with its
modifier and its label's recorded address. -/
theorem jump_step_encoding_witness :
    visitCatalog exJumpTables exJumpStep
      = .ok (encodeInstruction types.JUMP types.ON_FALSE (some 7)) := by
  have h := (jump_step_encoding exJumpTables exJumpStep rfl).2 types.ON_FALSE rfl
  rw [h]
  rfl

/-- C9: the label attached to a step has no influence on the encoded
word: two steps with identical operation, modifier and operand assemble
identically, label or no label. -/
theorem bytecode_ignores_labels (t : Tables) (s₁ s₂ : Step)
    (hop : s₁.operation = s₂.operation) (hmod : s₁.modifier = s₂.modifier)
    (hoper : s₁.operand = s₂.operand) :
    visitCatalog t s₁ = visitCatalog t s₂ := by
  obtain ⟨l₁, op₁, m₁, a₁⟩ := s₁
  obtain ⟨l₂, op₂, m₂, a₂⟩ := s₂
  simp only at hop hmod hoper
  subst hop; subst hmod; subst hoper
  simp [visitCatalog, visitJumpInstruction, visitPushInstruction, visitPopInstruction,
    visitLoadInstruction, visitStoreInstruction, visitInvokeInstruction,
    visitExecuteInstruction, visitHandleInstruction]

/-- C9 witness: the same handle step with and without a label yields the
same word. -/
theorem bytecode_ignores_labels_witness :
    visitCatalog emptyTables
        { label := some "1.ReturnStatement", operation := types.HANDLE,
          modifier := some types.RESULT }
      = visitCatalog emptyTables
          { label := none, operation := types.HANDLE, modifier := some types.RESULT } :=
  bytecode_ignores_labels emptyTables _ _ rfl rfl rfl

/-- C10: the parameter list the compiler builds for a parameterized
procedure is exactly the declared parameters in declaration order, with
each association replaced by its key (the default value is discarded)
and every other parameter kept unchanged. -/
theorem parameters_keys_in_order (ps : List Parameter) :
    extractParameters true ps = ps.map parameterKey := by
  have aux : ∀ (l : List Parameter) (acc : List String),
      l.foldl (fun acc p =>
          acc ++ [match p with
                  | .association k _ => k
                  | .plain s => s]) acc
        = acc ++ l.map parameterKey := by
    intro l
    induction l with
    | nil => intro acc; simp
    | cons p rest ih =>
        intro acc
        cases p <;> simp [ih, parameterKey]
  simpa [extractParameters] using aux ps []

/-- C3: for every statement with at least one handle clause, the emitted
sequence contains, in this order, the `PUSH HANDLER`, the `POP HANDLER`,
the handler label definition, the failure label definition immediately
followed by `HANDLE EXCEPTION`, and the success label definition —
whatever the main clause and the handle clauses themselves emit. -/
theorem handledStatement_scaffold_in_order (ctx : StmtCtx)
    (subclauseCount handlerCount : Nat) (mainOps handlerOps : List BOp)
    (h : 0 < handlerCount) :
    ([.raw ("PUSH HANDLER " ++ ctx.handlerLabel), .raw "POP HANDLER",
      .lbl ctx.handlerLabel, .lbl ctx.failureLabel, .raw "HANDLE EXCEPTION",
      .lbl ctx.successLabel] : List BOp).Sublist
        (visitStatementOps ctx subclauseCount handlerCount mainOps handlerOps)
    ∧ ∃ pre, visitStatementOps ctx subclauseCount handlerCount mainOps handlerOps
        = pre ++ [.lbl ctx.failureLabel, .raw "HANDLE EXCEPTION", .lbl ctx.successLabel] := by
  have hc : 0 < subclauseCount + handlerCount := by omega
  constructor
  · simp only [visitStatementOps, if_pos h, if_pos hc, List.cons_append, List.nil_append,
      List.singleton_append, List.append_assoc]
    refine List.Sublist.cons _ ?_
    refine List.Sublist.cons₂ _ ?_
    refine List.Sublist.trans ?_ (List.sublist_append_right mainOps _)
    refine List.Sublist.cons _ ?_
    refine List.Sublist.cons₂ _ ?_
    refine List.Sublist.cons _ ?_
    refine List.Sublist.cons₂ _ ?_
    exact List.sublist_append_right handlerOps _
  · refine ⟨[.lbl ctx.startLabel, .raw ("PUSH HANDLER " ++ ctx.handlerLabel)]
      ++ mainOps
      ++ [.lbl ctx.doneLabel, .raw "POP HANDLER", .raw ("JUMP TO " ++ ctx.successLabel),
          .lbl ctx.handlerLabel]
      ++ handlerOps, ?_⟩
    simp [visitStatementOps, if_pos h, if_pos hc]
    omega

/-- C3 witness: the scaffold order at a concrete handled statement. -/
theorem handledStatement_scaffold_witness :
    ([.raw ("PUSH HANDLER " ++ exStmtCtx.handlerLabel), .raw "POP HANDLER",
      .lbl exStmtCtx.handlerLabel, .lbl exStmtCtx.failureLabel, .raw "HANDLE EXCEPTION",
      .lbl exStmtCtx.successLabel] : List BOp).Sublist
        (visitStatementOps exStmtCtx 0 1 [.raw "LOAD VARIABLE $x"]
          [.lbl "1.1.HandleClause", .raw "STORE VARIABLE $e"])
    ∧ ∃ pre, visitStatementOps exStmtCtx 0 1 [.raw "LOAD VARIABLE $x"]
          [.lbl "1.1.HandleClause", .raw "STORE VARIABLE $e"]
        = pre ++ [.lbl exStmtCtx.failureLabel, .raw "HANDLE EXCEPTION",
                  .lbl exStmtCtx.successLabel] :=
  handledStatement_scaffold_in_order exStmtCtx 0 1 _ _ Nat.one_pos

/-- C6: calling `insertLabel` while another label is pending emits a
skip instruction first, binding the pending label to the skip's address;
the new label becomes the single pending label and is bound to the
address of the next real instruction when that instruction is inserted;
and the addresses catalog keeps binding every label to exactly one
address (its key list stays duplicate-free). -/
theorem insertLabel_pending_emits_skip (st : BuilderState) (l0 l1 : String)
    (h : st.nextLabel = some l0) :
    (insertLabel l1 st).asm = st.asm ++ [.lbl l0, .ins "SKIP INSTRUCTION"]
    ∧ (insertLabel l1 st).addresses = setValue st.addresses l0 st.address
    ∧ (insertLabel l1 st).address = st.address + 1
    ∧ (insertLabel l1 st).nextLabel = some l1
    ∧ (∀ text,
        (insertInstruction text (insertLabel l1 st)).addresses
          = setValue (setValue st.addresses l0 st.address) l1 (st.address + 1)
        ∧ (insertInstruction text (insertLabel l1 st)).asm
          = st.asm ++ [.lbl l0, .ins "SKIP INSTRUCTION", .lbl l1, .ins text]
        ∧ ((catalogKeys st.addresses).Nodup →
            (catalogKeys (insertInstruction text (insertLabel l1 st)).addresses).Nodup)) := by
  have hlbl : insertLabel l1 st
      = { st with
          addresses := setValue st.addresses l0 st.address
          asm := st.asm ++ [.lbl l0, .ins "SKIP INSTRUCTION"]
          nextLabel := some l1
          address := st.address + 1 } := by
    simp [insertLabel, insertSkipInstruction, insertInstruction, h]
  refine ⟨by rw [hlbl], by rw [hlbl], by rw [hlbl], by rw [hlbl], ?_⟩
  intro text
  rw [hlbl]
  refine ⟨by simp [insertInstruction], by simp [insertInstruction], ?_⟩
  intro hnd
  simp only [insertInstruction]
  exact setValue_fst_nodup (setValue_fst_nodup hnd)

/-- C6 witness: the double binding at a concrete builder state with a
pending label. -/
theorem insertLabel_pending_emits_skip_witness :
    (insertInstruction "HANDLE RESULT" (insertLabel "1.IfStatementSucceeded" exBuilder)).addresses
      = setValue (setValue exBuilder.addresses "1.IfStatementDone" 3) "1.IfStatementSucceeded" 4
    ∧ (insertInstruction "HANDLE RESULT" (insertLabel "1.IfStatementSucceeded" exBuilder)).asm
      = exBuilder.asm ++ [.lbl "1.IfStatementDone", .ins "SKIP INSTRUCTION",
          .lbl "1.IfStatementSucceeded", .ins "HANDLE RESULT"] := by
  have h := (insertLabel_pending_emits_skip exBuilder "1.IfStatementDone"
    "1.IfStatementSucceeded" rfl).2.2.2.2 "HANDLE RESULT"
  exact ⟨h.1, h.2.1⟩

/-- C7: a break (or continue) clause searches the frame stack from the
innermost frame outward for a statement with a loop label; when one is
found it emits a single unconditional jump to that statement's done
label (break) or loop label (continue), and when none is found it fails
with the no-enclosing-loop error, emitting nothing. -/
theorem loop_escape_jumps_or_fails (stack : List Frame) :
    (∀ f, findEnclosingLoop stack = some f →
        visitBreakClause stack = .ok [.raw ("JUMP TO " ++ f.doneLabel)]
        ∧ ∀ l, f.loopLabel = some l →
            visitContinueClause stack = .ok [.raw ("JUMP TO " ++ l)])
    ∧ (findEnclosingLoop stack = none →
        visitBreakClause stack = .error .noEnclosingLoop
        ∧ visitContinueClause stack = .error .noEnclosingLoop) := by
  constructor
  · intro f hf
    constructor
    · simp [visitBreakClause, hf]
    · intro l hl
      unfold visitContinueClause
      rw [findSome?_loopLabel]
      unfold findEnclosingLoop at hf
      rw [hf]
      simp [hl]
  · intro hn
    unfold findEnclosingLoop at hn
    constructor
    · simp [visitBreakClause, findEnclosingLoop, hn]
    · unfold visitContinueClause
      rw [findSome?_loopLabel, hn]
      rfl

/-- C7 witness: on the concrete stack whose innermost frame has no loop,
break jumps to the while statement's done label and continue to its loop
label. -/
theorem loop_escape_witness :
    visitBreakClause exLoopStack = .ok [.raw "JUMP TO 1.WhileStatementDone"]
    ∧ visitContinueClause exLoopStack = .ok [.raw "JUMP TO 1.1.ConditionClause"] := by
  have h := (loop_escape_jumps_or_fails exLoopStack).1
    { loopLabel := some "1.1.ConditionClause", doneLabel := "1.WhileStatementDone" } rfl
  exact ⟨h.1, h.2 "1.1.ConditionClause" rfl⟩

/-- C8 counterexample: an INVOKE step with exactly one argument is
printed with a `WITH PARAMETER` clause, not the claimed
`WITH ARGUMENT`. -/
theorem invoke_one_argument_prints_parameter :
    formatInstructionText invokeOneStep = some "INVOKE $factorial WITH PARAMETER"
    ∧ formatInstructionText invokeOneStep ≠ some "INVOKE $factorial WITH ARGUMENT" := by
  constructor
  · rfl
  · decide

/-- C8 (amended): the formatter omits default modifiers — a JUMP with
the ON ANY modifier prints with no ON clause, an EXECUTE with the
WITH_NOTHING modifier prints as the bare `EXECUTE` line — and an INVOKE
prints no WITH clause for zero parameters, `WITH PARAMETER` for exactly
one, and `WITH n PARAMETERS` for two or more. -/
theorem formatter_omits_default_modifiers (s : Step) (m : Nat) :
    (s.operation = types.JUMP → s.modifier = some types.ON_ANY →
        formatInstructionText s = some ("JUMP TO " ++ s.operand.getD ""))
    ∧ (s.operation = types.EXECUTE → s.modifier = some types.WITH_NOTHING →
        formatInstructionText s = some ("EXECUTE " ++ s.operand.getD ""))
    ∧ (s.operation = types.INVOKE → s.modifier = some m →
        (m = 0 → formatInstructionText s = some ("INVOKE " ++ s.operand.getD ""))
        ∧ (m = 1 →
            formatInstructionText s
              = some ("INVOKE " ++ s.operand.getD "" ++ " WITH PARAMETER"))
        ∧ (2 ≤ m →
            formatInstructionText s
              = some ("INVOKE " ++ s.operand.getD "" ++ " WITH " ++ Nat.repr m
                  ++ " PARAMETERS"))) := by
  refine ⟨?_, ?_, ?_⟩
  · intro hop hm
    simp [formatInstructionText, hop, formatJumpInstruction, hm]
  · intro hop hm
    simp [formatInstructionText, hop, formatExecuteInstruction, hm,
      types.EXECUTE, types.JUMP, types.PUSH, types.POP, types.LOAD, types.STORE,
      types.INVOKE, types.WITH_NOTHING]
  · intro hop hm
    refine ⟨?_, ?_, ?_⟩
    · intro h0
      subst h0
      simp [formatInstructionText, hop, formatInvokeInstruction, hm,
        types.INVOKE, types.JUMP, types.PUSH, types.POP, types.LOAD, types.STORE]
    · intro h1
      subst h1
      simp [formatInstructionText, hop, formatInvokeInstruction, hm,
        types.INVOKE, types.JUMP, types.PUSH, types.POP, types.LOAD, types.STORE,
        String.append_assoc]
    · intro h2
      have h0 : 0 < m := by omega
      have h1 : 1 < m := by omega
      simp [formatInstructionText, hop, formatInvokeInstruction, hm, h0, h1,
        types.INVOKE, types.JUMP, types.PUSH, types.POP, types.LOAD, types.STORE,
        String.append_assoc]

/-- C8 witness: the three default-omission cases at concrete steps. -/
theorem formatter_omits_default_modifiers_witness :
    formatInstructionText
        { operation := types.JUMP, modifier := some types.ON_ANY,
          operand := some "1.IfStatementDone" }
      = some "JUMP TO 1.IfStatementDone"
    ∧ formatInstructionText
        { operation := types.EXECUTE, modifier := some types.WITH_NOTHING,
          operand := some "$function1" }
      = some "EXECUTE $function1"
    ∧ formatInstructionText
        { operation := types.INVOKE, modifier := some 2, operand := some "$sum" }
      = some "INVOKE $sum WITH 2 PARAMETERS" := by
  refine ⟨?_, ?_, ?_⟩
  · have h := (formatter_omits_default_modifiers
      { operation := types.JUMP, modifier := some types.ON_ANY,
        operand := some "1.IfStatementDone" } 0).1 rfl rfl
    rw [h]
    rfl
  · have h := (formatter_omits_default_modifiers
      { operation := types.EXECUTE, modifier := some types.WITH_NOTHING,
        operand := some "$function1" } 0).2.1 rfl rfl
    rw [h]
    rfl
  · have h := ((formatter_omits_default_modifiers
      { operation := types.INVOKE, modifier := some 2, operand := some "$sum" } 2).2.2
        rfl rfl).2.2 (by omega)
    rw [h]
    rfl

/-- C4: the formatter's canonical text for the finaliser tail of every
compiled procedure, and the fatal syntax error `Parser.parseInstructions`
raises on it — the parser's grammar has no `HANDLE` production (its
instruction set has `PULL RESULT` instead), so re-parsing the formatted
compiler output fails instead of round-tripping. -/
theorem formatter_output_unparseable :
    formatInstructions [loadResultStep, handleResultStep]
      = some "LOAD VARIABLE $$result\nHANDLE RESULT"
    ∧ parseInstructions "LOAD VARIABLE $$result\nHANDLE RESULT" = none := by
  constructor
  · rfl
  · rfl

end Bali
